import Mathlib

/-!
# Heat-map pipeline of `heatmap.go`

A shallow embedding of `getHeatMap`, `cluster`, `getGeocode`, `getNearby` and
`contains`, followed by the properties established about them.

Modelling conventions.

* `float64` values are represented by exact rationals (`ℚ`).  Every statement
  below only depends on which values are read, added, divided by a length and
  compared with zero or with each other; rounding is not modelled.
* Everything that lives outside the repository is an explicit parameter,
  gathered in `Env`: the package-level ping table `plist`, the clusterer
  `dbscan.DBScan`, the two remote services, `haversine.Distance` and
  `sort.Slice`.
* A Go call either terminates the process (`os.Exit(1)`), panics (index out of
  range) or returns; `Outcome` records which.
* A Go `map[string][]Heatmap` is an association list with distinct keys, kept
  in order of first insertion; the `nil` map is `none`.
-/

namespace HeatmapGo

/-! ## Data model -/

/-- The Go `error` values that occur are plain messages. -/
abbrev Error := String

/-- The result of a Go call that may terminate the process or panic. -/
inductive Outcome (α : Type) where
  /-- The call reached `os.Exit(1)`. -/
  | exited : Outcome α
  /-- The call panicked with an index out of range. -/
  | panicked : Outcome α
  /-- The call returned. -/
  | ret : α → Outcome α
  deriving DecidableEq, Repr

/-- Sequencing of Go calls: the first abnormal termination wins. -/
def Outcome.bind {α β : Type} (x : Outcome α) (f : α → Outcome β) : Outcome β :=
  match x with
  | .exited => .exited
  | .panicked => .panicked
  | .ret a => f a

/-- What an HTTP round trip followed by `json.Unmarshal` can produce. -/
inductive Fetch (α : Type) where
  /-- Building the request, sending it or reading the body failed. -/
  | transportFailure : Fetch α
  /-- The body was read but `json.Unmarshal` returned an error. -/
  | unparsable : Error → Fetch α
  /-- The body was decoded into a value. -/
  | parsed : α → Fetch α
  deriving DecidableEq, Repr

/-- The struct `Heatmap`. -/
structure Heatmap where
  Distance : ℚ
  Latitude : ℚ
  Longitude : ℚ
  EstimateLocation : String
  Locality : String
  PAXCount : Nat
  deriving DecidableEq, Repr

/-- The struct `Geocode`; `default` is the Go zero value `Geocode{}`. -/
structure Geocode where
  EstimateLocation : String := ""
  Locality : String := ""
  deriving DecidableEq, Repr

/-- One element of `Result.AddressComponents`. -/
structure AddressComponent where
  LongName : String
  ShortName : String
  Types : List String
  deriving DecidableEq, Repr

/-- The struct `Result` (the `Geometry` block, which no code reads, is left out). -/
structure Result where
  AddressComponents : List AddressComponent
  FormattedAddress : String
  PlaceID : String
  Types : List String
  deriving DecidableEq, Repr

/-- The struct `GmapsRes`. -/
structure GmapsRes where
  Results : List Result
  Status : String
  deriving DecidableEq, Repr

/-- One element of `Nearby.Results` (only the fields of string or list type
are kept; the code reads `Name` and `Types`). -/
structure NearbyResult where
  Name : String
  PlaceID : String
  Types : List String
  Vicinity : String
  deriving DecidableEq, Repr

/-- The struct `Nearby`. -/
structure Nearby where
  Results : List NearbyResult
  Status : String
  deriving DecidableEq, Repr

/-- A `space.Point` of a partition: the pair `p[0], p[1]`. -/
structure Point where
  lat : ℚ
  long : ℚ
  deriving DecidableEq, Repr

/-- One row `p` of the ping table `plist`: `p[0]`, `p[1]` and the integer that
`fmt.Sprintf("%.0f", p[2])` prints. -/
structure Ping where
  lat : ℚ
  long : ℚ
  ts : Int
  deriving DecidableEq, Repr

/-- The type `haversine.Coord`. -/
structure Coord where
  Lat : ℚ
  Lon : ℚ
  deriving DecidableEq, Repr

/-- A Go `map[string][]Heatmap` that is not `nil`. -/
abbrev HeatmapMap := List (String × List Heatmap)

/-- Everything `heatmap.go` uses but does not define. -/
structure Env where
  /-- The package-level mock table of pings. -/
  plist : List Ping
  /-- The clusters `dbscan.DBScan(d, eps, minPts)` returns, each as its
  `Points` index list. -/
  DBScan : List Point → ℚ → Nat → List (List Nat)
  /-- The reverse-geocoding round trip for a coordinate pair. -/
  geocodeResp : ℚ → ℚ → Fetch GmapsRes
  /-- The nearby-search round trip for a coordinate pair. -/
  nearbyResp : ℚ → ℚ → Fetch Nearby
  /-- The kilometre component of `haversine.Distance`. -/
  haversineKm : Coord → Coord → ℚ
  /-- The call `sort.Slice(x, less)`, with `less` read on elements. -/
  sortSlice : (Heatmap → Heatmap → Bool) → List Heatmap → List Heatmap

/-! ## `contains`, `getNearby`, `getGeocode` -/

/-- The function `contains`: a linear scan for `e`. -/
def contains : List String → String → Bool
  | [], _ => false
  | a :: s, e => if a = e then true else contains s e

/-- The body of the `for _, r := range n.Results` loop of `getNearby`. -/
def nearbyStep (g : Geocode) (r : NearbyResult) : Geocode :=
  if contains r.Types "locality" then { g with Locality := r.Name }
  else { g with EstimateLocation := r.Name }

/-- The function `getNearby`, as the pair `(Geocode, error)` it returns. -/
def getNearby (env : Env) (lat long : ℚ) : Outcome (Geocode × Option Error) :=
  match env.nearbyResp lat long with
  | .transportFailure => .exited
  | .unparsable err => .ret ({}, some err)
  | .parsed n =>
    if n.Status ≠ "OK" then .ret ({}, none)
    else .ret (n.Results.foldl nearbyStep {}, none)

/-- The `for _, a := range ac` loop of `getGeocode`, which stops at the first
component of type `locality`. -/
def localityLoop (g : Geocode) : List AddressComponent → Geocode
  | [] => g
  | a :: ac =>
    if contains a.Types "locality" then { g with Locality := a.LongName }
    else localityLoop g ac

/-- The function `getGeocode`, as the pair `(Geocode, error)` it returns. -/
def getGeocode (env : Env) (lat long : ℚ) : Outcome (Geocode × Option Error) :=
  match env.geocodeResp lat long with
  | .transportFailure => .exited
  | .unparsable err => .ret ({}, some err)
  | .parsed gm =>
    if gm.Status ≠ "OK" then getNearby env lat long
    else
      match gm.Results with
      | [] => .panicked
      | r0 :: _ =>
        .ret (localityLoop { EstimateLocation := r0.FormattedAddress } r0.AddressComponents,
          none)

/-! ## `cluster` -/

/-- The inner loop of `cluster` over `c.Points`: it reads `plist[p]` for every
index `p`, counting the points appended to `cl` and accumulating `sumlat` and
`sumlong`.  An index outside `plist` panics. -/
def sumLoop (plist : List Ping) : List Nat → Nat × ℚ × ℚ → Outcome (Nat × ℚ × ℚ)
  | [], acc => .ret acc
  | p :: ps, (n, sumlat, sumlong) =>
    match plist[p]? with
    | none => .panicked
    | some q => sumLoop plist ps (n + 1, sumlat + q.lat, sumlong + q.long)

/-- The comparison handed to `sort.Slice`. -/
def distLess (a b : Heatmap) : Bool := decide (a.Distance < b.Distance)

/-- The `distance` a cluster entry receives for the origin `(lat, long)` and
the centroid `(avglat, avglong)`. -/
def distanceOf (env : Env) (lat long avglat avglong : ℚ) : ℚ :=
  if lat ≠ 0 ∧ long ≠ 0 then
    env.haversineKm { Lat := lat, Lon := long } { Lat := avglat, Lon := avglong }
  else 0

/-- The body of the `for _, c := range dbCluster` loop of `cluster` for one
cluster `c`: `none` is the early `return nil, nil`, otherwise it is the entry
`h` appended to `hlist`.  (For an empty `c.Points` the Go quotient is `NaN`;
here it is `0`.) -/
def clusterEntry (env : Env) (lat long : ℚ) (c : List Nat) : Outcome (Option Heatmap) :=
  (sumLoop env.plist c (0, 0, 0)).bind fun acc =>
    let avglat := acc.2.1 / (acc.1 : ℚ)
    let avglong := acc.2.2 / (acc.1 : ℚ)
    (getGeocode env avglat avglong).bind fun res =>
      match res.2 with
      | some _ => .ret none
      | none =>
        .ret (some
          { Distance := distanceOf env lat long avglat avglong
            Latitude := avglat
            Longitude := avglong
            EstimateLocation := res.1.EstimateLocation
            Locality := res.1.Locality
            PAXCount := acc.1 })

/-- The `for _, c := range dbCluster` loop of `cluster`.  The result `none`
is the early `return nil, nil`; otherwise it is the final `hlist`. -/
def clusterLoop (env : Env) (lat long : ℚ) :
    List (List Nat) → List Heatmap → Outcome (Option (List Heatmap))
  | [], hlist => .ret (some hlist)
  | c :: cs, hlist =>
    (clusterEntry env lat long c).bind fun r =>
      match r with
      | none => .ret none
      | some h => clusterLoop env lat long cs (hlist ++ [h])

/-- The read `val, ok := lh[k]` of a Go map. -/
def mapGet (lh : HeatmapMap) (k : String) : Option (List Heatmap) :=
  match lh with
  | [] => none
  | (k0, v0) :: rest => if k0 = k then some v0 else mapGet rest k

/-- The write `lh[k] = v` of a Go map. -/
def mapSet (lh : HeatmapMap) (k : String) (v : List Heatmap) : HeatmapMap :=
  match lh with
  | [] => [(k, v)]
  | (k0, v0) :: rest => if k0 = k then (k, v) :: rest else (k0, v0) :: mapSet rest k v

/-- The body of the grouping loop `for _, h := range hlist` of `cluster`. -/
def groupStep (lh : HeatmapMap) (h : Heatmap) : HeatmapMap :=
  match mapGet lh h.Locality with
  | some val => mapSet lh h.Locality (val ++ [h])
  | none => mapSet lh h.Locality [h]

/-- The grouping loop of `cluster`, started on the empty map. -/
def groupLoop (hlist : List Heatmap) : HeatmapMap :=
  hlist.foldl groupStep []

/-- The sort step of `cluster`. -/
def sortStep (env : Env) (hlist : List Heatmap) : List Heatmap :=
  env.sortSlice distLess hlist

/-- The function `cluster`, as the pair `(map, error)` it returns. -/
def cluster (env : Env) (lat long : ℚ) (d : List Point) :
    Outcome (Option HeatmapMap × Option Error) :=
  (clusterLoop env lat long (env.DBScan d (3 / 2) 10) []).bind fun r =>
    match r with
    | none => .ret (none, none)
    | some hlist => .ret (some (groupLoop (sortStep env hlist)), none)

/-! ## `getHeatMap` -/

/-- The call `strconv.ParseInt(s, 10, 64)` on the numeral of `n`. -/
def parseInt (n : Int) : Except Error Int :=
  if -(2 : Int) ^ 63 ≤ n ∧ n < (2 : Int) ^ 63 then .ok n else .error "value out of range"

/-- Nanoseconds in two hours, `2 * time.Hour`. -/
def twoHours : Int := 2 * 3600 * 1000000000

/-- The instant `time.Unix(sec, 0)`, in nanoseconds since the epoch. -/
def unixTime (sec : Int) : Int := sec * 1000000000

/-- The partitioning loop `for _, p := range plist` of `getHeatMap`, for the
query instant `now` (nanoseconds since the epoch).  Instants are exact:
`time.Unix`, `Add` and `After` are taken at their documented meaning. -/
def partitionLoop (now : Int) :
    List Ping → List Point × List Point → Except Error (List Point × List Point)
  | [], acc => .ok acc
  | p :: ps, (dcurrent, dpredict) =>
    match parseInt p.ts with
    | .error err => .error err
    | .ok unixString =>
      let pt := unixTime unixString
      let then_ := now - twoHours
      if then_ > pt then
        partitionLoop now ps (dcurrent ++ [{ lat := p.lat, long := p.long }], dpredict)
      else
        partitionLoop now ps (dcurrent, dpredict ++ [{ lat := p.lat, long := p.long }])

/-- A query parameter after `r.URL.Query().Get`: absent or empty (`none`), or
the result of `strconv.ParseFloat` on it. -/
abbrev QueryParam := Option (Except Error ℚ)

/-- What `getHeatMap` writes to the response. -/
inductive Response where
  /-- The call `encodeJSONError(w, err, status)`. -/
  | jsonError : Error → Nat → Response
  /-- The call `encodeJSONResp(w, lh, status)` with `lh["current"]` and `lh["predict"]`. -/
  | jsonResp : Option HeatmapMap → Option HeatmapMap → Nat → Response
  deriving DecidableEq, Repr

/-- The part of `getHeatMap` after the origin is known. -/
def serveHeatMap (env : Env) (now : Int) (lat long : ℚ) : Outcome Response :=
  match partitionLoop now env.plist ([], []) with
  | .error err => .ret (.jsonError err 400)
  | .ok (dcurrent, dpredict) =>
    (cluster env lat long dcurrent).bind fun cur =>
      match cur.2 with
      | some err => .ret (.jsonError err 400)
      | none =>
        (cluster env lat long dpredict).bind fun pre =>
          match pre.2 with
          | some err => .ret (.jsonError err 400)
          | none => .ret (.jsonResp cur.1 pre.1 200)

/-- The handler `getHeatMap`. -/
def getHeatMap (env : Env) (now : Int) (latString longString : QueryParam) :
    Outcome Response :=
  match latString, longString with
  | some la, some lo =>
    match la with
    | .error err => .ret (.jsonError err 400)
    | .ok lat =>
      match lo with
      | .error err => .ret (.jsonError err 400)
      | .ok long => serveHeatMap env now lat long
  | _, _ => serveHeatMap env now 0 0

/-! ## Reference notions and sample inputs -/

/-- The long name of the first address component whose types include
`locality`, or the empty string when there is none. -/
def firstLocalityLongName (ac : List AddressComponent) : String :=
  ((ac.find? fun a => decide ("locality" ∈ a.Types)).map fun a => a.LongName).getD ""

/-- The clusters `dbscan.DBScan` finds on a partition whose points all lie
within `eps` of one another: a single cluster holding every index, provided
there are at least `minPts` points. -/
def denseDBScan (d : List Point) (_eps : ℚ) (minPts : Nat) : List (List Nat) :=
  if minPts ≤ d.length then [List.range d.length] else []

/-- A distance used when evaluating sample inputs: 111 km for each degree of
latitude and of longitude between the two coordinates. -/
def gridKm (a b : Coord) : ℚ := 111 * (|a.Lat - b.Lat| + |a.Lon - b.Lon|)

/-- A sort meeting the contract of `sort.Slice` that keeps equal elements in
their original order (insertion sort). -/
def stableSlice (less : Heatmap → Heatmap → Bool) (x : List Heatmap) : List Heatmap :=
  x.insertionSort fun a b => less b a = false

/-- A sample environment: the given ping table and remote answers, a dense
partition, `gridKm` and `stableSlice`. -/
def sampleEnv (plist : List Ping) (geo : ℚ → ℚ → Fetch GmapsRes)
    (nearby : ℚ → ℚ → Fetch Nearby) : Env :=
  { plist := plist
    DBScan := denseDBScan
    geocodeResp := geo
    nearbyResp := nearby
    haversineKm := gridKm
    sortSlice := stableSlice }

/-- A reverse-geocoding answer with status `OK` and one result, whose second
address component is the locality. -/
def gmapsOne : GmapsRes :=
  { Results :=
      [{ AddressComponents :=
           [{ LongName := "Barangay 1", ShortName := "B1", Types := ["sublocality", "political"] },
            { LongName := "Makati", ShortName := "MKT", Types := ["locality", "political"] },
            { LongName := "Manila", ShortName := "MNL", Types := ["locality"] }]
         FormattedAddress := "Barangay 1, Makati"
         PlaceID := "p1"
         Types := ["sublocality"] }]
    Status := "OK" }

/-- A reverse-geocoding answer with status `OK` and no result. -/
def gmapsEmptyOK : GmapsRes := { Results := [], Status := "OK" }

/-- A nearby-search answer with a status other than `OK`. -/
def nearbyZero : Nearby := { Results := [], Status := "ZERO_RESULTS" }

/-- A ping table of thirteen rows: one recent ping at `(50, 50)` followed by
twelve old pings at `(1, 1)`. -/
def pingsThirteen : List Ping :=
  { lat := 50, long := 50, ts := 1000000 } ::
    List.replicate 12 { lat := 1, long := 1, ts := 900000 }

/-- A query instant 1 000 000 seconds after the epoch, in nanoseconds. -/
def sampleNow : Int := 1000000 * 1000000000

/-- The entries of `hlist` whose `Locality` is `k`, in the order of `hlist`. -/
def withLocality (k : String) (hlist : List Heatmap) : List Heatmap :=
  hlist.filter fun h => decide (h.Locality = k)

/-- The keys of a Go map. -/
def mapKeys (lh : HeatmapMap) : List String := lh.map Prod.fst

/-- The values of a Go map. -/
def mapValues (lh : HeatmapMap) : List (List Heatmap) := lh.map Prod.snd

/-- Merging the groups of a map back along a sequence of keys: for each key in
turn, the next entry not yet taken from the group of that key. -/
def mergeBack : List String → HeatmapMap → List Heatmap
  | [], _ => []
  | k :: ks, lh =>
    match mapGet lh k with
    | some (h :: rest) => h :: mergeBack ks (mapSet lh k rest)
    | _ => []

/-- The mean latitude and the mean longitude of the points `d[i]` of a
partition `d` at the indices `i` of a cluster `c`. -/
def partitionMean (d : List Point) (c : List Nat) : ℚ × ℚ :=
  ((c.map fun i => (d[i]?.map fun q => q.lat).getD 0).sum / (c.length : ℚ),
    (c.map fun i => (d[i]?.map fun q => q.long).getD 0).sum / (c.length : ℚ))

/-- A ping table of twelve old pings at `(1, 1)`. -/
def pingsTwelve : List Ping := List.replicate 12 { lat := 1, long := 1, ts := 900000 }

/-- The partition of twelve points at `(1, 1)`. -/
def dTwelve : List Point := List.replicate 12 { lat := 1, long := 1 }

/-- The indices `0, …, 11`. -/
def twelveIndices : List Nat := [0, 1, 2, 3, 4, 5, 6, 7, 8, 9, 10, 11]

/-- The sample environment in which every reverse-geocoding lookup answers
`gmapsOne`, over the ping table `pingsThirteen`. -/
def envThirteen : Env :=
  sampleEnv pingsThirteen (fun _ _ => .parsed gmapsOne) fun _ _ => .parsed nearbyZero

/-- The sample environment in which every reverse-geocoding lookup answers
`gmapsOne`, over the ping table `pingsTwelve`. -/
def envMakati : Env :=
  sampleEnv pingsTwelve (fun _ _ => .parsed gmapsOne) fun _ _ => .parsed nearbyZero

/-- The sample environment in which no reverse-geocoding answer can be
parsed. -/
def envUnparsable : Env :=
  sampleEnv pingsTwelve (fun _ _ => .unparsable "unexpected end of JSON input")
    fun _ _ => .parsed nearbyZero

/-- The entry of the sample environments answering `gmapsOne`, for a distance
and a centroid. -/
def makatiEntry (distance avglat avglong : ℚ) : Heatmap :=
  { Distance := distance
    Latitude := avglat
    Longitude := avglong
    EstimateLocation := "Barangay 1, Makati"
    Locality := "Makati"
    PAXCount := 12 }

/-- The scan `contains s e` decides membership of `e` in `s`. -/
theorem contains_iff (s : List String) (e : String) : contains s e = true ↔ e ∈ s := by
  induction s with
  | nil => simp [contains]
  | cons a s ih =>
    by_cases h : a = e
    · simp [contains, h]
    · have h2 : ¬ e = a := fun h3 => h h3.symm
      simp [contains, h, h2, ih]

/-- The scan `contains s e` as a decision of membership. -/
theorem contains_eq_decide (s : List String) (e : String) :
    contains s e = decide (e ∈ s) := by
  by_cases h : e ∈ s
  · simp [h, (contains_iff s e).2 h]
  · have : contains s e ≠ true := fun hc => h ((contains_iff s e).1 hc)
    simp [h, this]

/-- The loop of `getGeocode` keeps `EstimateLocation` and sets `Locality` from
the first component of type `locality`, if any. -/
theorem localityLoop_eq (g : Geocode) (ac : List AddressComponent) :
    localityLoop g ac =
      { EstimateLocation := g.EstimateLocation
        Locality :=
          ((ac.find? fun a => decide ("locality" ∈ a.Types)).map fun a => a.LongName).getD
            g.Locality } := by
  induction ac with
  | nil => simp [localityLoop]
  | cons a ac ih =>
    by_cases h : "locality" ∈ a.Types
    · simp [localityLoop, contains_eq_decide, h, List.find?]
    · simp [localityLoop, contains_eq_decide, h, List.find?, ih]

/-- With a parsed answer of status `OK` whose result list starts with `r0`,
`getGeocode` returns the formatted address of `r0` and its first locality
component, with no error. -/
theorem getGeocode_ok_eq (env : Env) (lat long : ℚ) (gm : GmapsRes)
    (r0 : Result) (rs : List Result)
    (hresp : env.geocodeResp lat long = .parsed gm) (hstatus : gm.Status = "OK")
    (hres : gm.Results = r0 :: rs) :
    getGeocode env lat long =
      .ret ({ EstimateLocation := r0.FormattedAddress
              Locality := firstLocalityLongName r0.AddressComponents }, none) := by
  simp [getGeocode, hresp, hstatus, hres, localityLoop_eq, firstLocalityLongName]

/-- C8: when the reverse-geocoding answer for `(lat, long)` parses, has status
`OK` and its result list starts with `r0`, `getGeocode` returns, with no error,
the formatted address of `r0` as `EstimateLocation` and as `Locality` the long
name of the first address component of `r0` whose types include `locality`
(the empty string when there is none); the outcome is the same whatever the
nearby-search service would answer, a transport failure included. -/
theorem getGeocode_ok_first_result (env : Env) (lat long : ℚ) (gm : GmapsRes)
    (r0 : Result) (rs : List Result)
    (hresp : env.geocodeResp lat long = .parsed gm) (hstatus : gm.Status = "OK")
    (hres : gm.Results = r0 :: rs) :
    getGeocode env lat long =
        .ret ({ EstimateLocation := r0.FormattedAddress
                Locality := firstLocalityLongName r0.AddressComponents }, none) ∧
      ∀ nearby : ℚ → ℚ → Fetch Nearby,
        getGeocode { env with nearbyResp := nearby } lat long = getGeocode env lat long := by
  refine ⟨getGeocode_ok_eq env lat long gm r0 rs hresp hstatus hres, fun nearby => ?_⟩
  rw [getGeocode_ok_eq env lat long gm r0 rs hresp hstatus hres,
    getGeocode_ok_eq { env with nearbyResp := nearby } lat long gm r0 rs hresp hstatus hres]

/-- C8 at a sample answer: the address of the first result and the first
locality component are returned although the nearby search is unreachable. -/
theorem getGeocode_ok_first_result_witness :
    getGeocode (sampleEnv [] (fun _ _ => .parsed gmapsOne) fun _ _ => .transportFailure) 1 2 =
        .ret ({ EstimateLocation := "Barangay 1, Makati", Locality := "Makati" }, none) := by
  have h := (getGeocode_ok_first_result
    (sampleEnv [] (fun _ _ => .parsed gmapsOne) fun _ _ => .transportFailure) 1 2 gmapsOne
    _ [] rfl rfl rfl).1
  rw [h]
  decide

/-- With a parsed answer of status `OK` and an empty result list, `getGeocode`
panics at `gm.Results[0]`, whatever the environment. -/
theorem getGeocode_ok_empty (env : Env) (lat long : ℚ) (gm : GmapsRes)
    (hresp : env.geocodeResp lat long = .parsed gm) (hstatus : gm.Status = "OK")
    (hres : gm.Results = []) : getGeocode env lat long = .panicked := by
  simp [getGeocode, hresp, hstatus, hres]

/-- C10: on the parsed reverse-geocoding answer with status `OK` and an empty
result list, `getGeocode` does not return a `Geocode`: the read of
`gm.Results[0]` is out of range and the call panics. -/
theorem getGeocode_ok_empty_results_panics :
    getGeocode (sampleEnv [] (fun _ _ => .parsed gmapsEmptyOK) fun _ _ => .parsed nearbyZero)
      1 2 = .panicked ∧
      ∀ res, getGeocode (sampleEnv [] (fun _ _ => .parsed gmapsEmptyOK)
        fun _ _ => .parsed nearbyZero) 1 2 ≠ .ret res := by
  have h := getGeocode_ok_empty
    (sampleEnv [] (fun _ _ => .parsed gmapsEmptyOK) fun _ _ => .parsed nearbyZero) 1 2
    gmapsEmptyOK rfl rfl rfl
  refine ⟨h, fun res hr => ?_⟩
  rw [h] at hr
  cases hr

/-- Reading a map after a write. -/
theorem mapGet_mapSet (lh : HeatmapMap) (k : String) (v : List Heatmap) (k1 : String) :
    mapGet (mapSet lh k v) k1 = if k = k1 then some v else mapGet lh k1 := by
  induction lh with
  | nil => simp [mapSet, mapGet]
  | cons kv rest ih =>
    obtain ⟨k0, v0⟩ := kv
    by_cases h0 : k0 = k
    · subst h0
      by_cases h1 : k0 = k1 <;> simp [mapSet, mapGet, h1]
    · by_cases h1 : k0 = k1
      · subst h1
        have h2 : ¬ k = k0 := fun h => h0 h.symm
        simp [mapSet, mapGet, h0, h2]
      · simp [mapSet, mapGet, h0, h1, ih]

/-- A key is present exactly when reading it succeeds. -/
theorem mem_mapKeys_iff (lh : HeatmapMap) (k : String) :
    k ∈ mapKeys lh ↔ mapGet lh k ≠ none := by
  induction lh with
  | nil => simp [mapKeys, mapGet]
  | cons kv rest ih =>
    obtain ⟨k0, v0⟩ := kv
    by_cases h0 : k0 = k
    · simp [mapKeys, mapGet, h0]
    · have h1 : ¬ k = k0 := fun h => h0 h.symm
      have ih2 : k ∈ List.map Prod.fst rest ↔ mapGet rest k ≠ none := ih
      simp only [mapKeys, List.map_cons, List.mem_cons, h1, false_or, mapGet, h0, if_false]
      exact ih2

/-- The keys after a write: unchanged for a present key, extended at the end
for a new one. -/
theorem mapKeys_mapSet (lh : HeatmapMap) (k : String) (v : List Heatmap) :
    mapKeys (mapSet lh k v) = if k ∈ mapKeys lh then mapKeys lh else mapKeys lh ++ [k] := by
  induction lh with
  | nil => simp [mapKeys, mapSet]
  | cons kv rest ih =>
    obtain ⟨k0, v0⟩ := kv
    have ih2 : List.map Prod.fst (mapSet rest k v) =
        if k ∈ List.map Prod.fst rest then List.map Prod.fst rest
        else List.map Prod.fst rest ++ [k] := ih
    by_cases h0 : k0 = k
    · simp [mapKeys, mapSet, h0]
    · have h1 : ¬ k = k0 := fun h => h0 h.symm
      simp only [mapKeys, mapSet, h0, if_false, List.map_cons, List.mem_cons, h1, false_or, ih2]
      split <;> simp

/-- A write keeps the keys distinct. -/
theorem nodup_mapKeys_mapSet (lh : HeatmapMap) (k : String) (v : List Heatmap)
    (h : (mapKeys lh).Nodup) : (mapKeys (mapSet lh k v)).Nodup := by
  rw [mapKeys_mapSet]
  split
  · exact h
  · rename_i hk
    rw [List.nodup_append]
    refine ⟨h, List.nodup_singleton k, ?_⟩
    intro a ha hb
    rw [List.mem_singleton] at hb
    exact hk (hb ▸ ha)

/-- The step of the grouping loop as a write of the extended group. -/
theorem groupStep_eq (lh : HeatmapMap) (h : Heatmap) :
    groupStep lh h = mapSet lh h.Locality ((mapGet lh h.Locality).getD [] ++ [h]) := by
  unfold groupStep
  cases hg : mapGet lh h.Locality <;> simp

/-- One step of the grouping loop splits off like an appended element. -/
theorem groupLoop_append (hlist : List Heatmap) (h : Heatmap) :
    groupLoop (hlist ++ [h]) = groupStep (groupLoop hlist) h := by
  simp [groupLoop, List.foldl_append]

/-- The group stored under `k`, read with the empty list for an absent key, is
the list of the entries with locality `k`. -/
theorem mapGet_groupLoop_getD (hlist : List Heatmap) (k : String) :
    (mapGet (groupLoop hlist) k).getD [] = withLocality k hlist := by
  induction hlist using List.reverseRecOn with
  | nil => simp [groupLoop, mapGet, withLocality]
  | append_singleton l h ih =>
    rw [groupLoop_append, groupStep_eq, mapGet_mapSet]
    by_cases hk : h.Locality = k
    · subst hk
      simp [withLocality, List.filter_append] at ih ⊢
      exact ih
    · simp [withLocality, List.filter_append, hk] at ih ⊢
      exact ih

/-- A key is present after the grouping loop exactly when some entry has it
as locality. -/
theorem mem_mapKeys_groupLoop (hlist : List Heatmap) (k : String) :
    k ∈ mapKeys (groupLoop hlist) ↔ ∃ h ∈ hlist, h.Locality = k := by
  induction hlist using List.reverseRecOn with
  | nil => simp [groupLoop, mapKeys]
  | append_singleton l h ih =>
    rw [groupLoop_append, groupStep_eq, mapKeys_mapSet]
    by_cases hm : h.Locality ∈ mapKeys (groupLoop l)
    · rw [if_pos hm, ih]
      constructor
      · rintro ⟨x, hx, rfl⟩
        exact ⟨x, List.mem_append_left _ hx, rfl⟩
      · rintro ⟨x, hx, rfl⟩
        rcases List.mem_append.1 hx with hx | hx
        · exact ⟨x, hx, rfl⟩
        · rw [List.mem_singleton] at hx
          subst hx
          exact ih.1 hm
    · rw [if_neg hm, List.mem_append, List.mem_singleton, ih]
      constructor
      · rintro (⟨x, hx, rfl⟩ | rfl)
        · exact ⟨x, List.mem_append_left _ hx, rfl⟩
        · exact ⟨h, by simp, rfl⟩
      · rintro ⟨x, hx, rfl⟩
        rcases List.mem_append.1 hx with hx | hx
        · exact Or.inl ⟨x, hx, rfl⟩
        · rw [List.mem_singleton] at hx
          exact Or.inr (by rw [hx])

/-- The keys stay distinct throughout the grouping loop. -/
theorem nodup_mapKeys_groupLoop (hlist : List Heatmap) :
    (mapKeys (groupLoop hlist)).Nodup := by
  induction hlist using List.reverseRecOn with
  | nil => simp [groupLoop, mapKeys]
  | append_singleton l h ih =>
    rw [groupLoop_append, groupStep_eq]
    exact nodup_mapKeys_mapSet _ _ _ ih

/-- Extending the group of a present key adds one entry to the map. -/
theorem flatten_mapSet_some (lh : HeatmapMap) (k : String) (val : List Heatmap) (h : Heatmap)
    (hget : mapGet lh k = some val) :
    (mapValues (mapSet lh k (val ++ [h]))).flatten.Perm (h :: (mapValues lh).flatten) := by
  induction lh with
  | nil => simp [mapGet] at hget
  | cons kv rest ih =>
    obtain ⟨k0, v0⟩ := kv
    by_cases h0 : k0 = k
    · simp only [mapGet, h0, if_true, Option.some.injEq] at hget
      subst hget
      simp only [mapSet, h0, if_true, mapValues, List.map_cons, List.flatten_cons]
      rw [List.append_assoc]
      exact (List.perm_middle).trans (List.Perm.refl _)
    · simp only [mapGet, h0, if_false] at hget
      have ih2 := ih hget
      simp only [mapSet, h0, if_false, mapValues, List.map_cons, List.flatten_cons] at ih2 ⊢
      exact (List.Perm.append_left v0 ih2).trans List.perm_middle

/-- Creating the group of an absent key adds one entry to the map. -/
theorem flatten_mapSet_none (lh : HeatmapMap) (k : String) (h : Heatmap)
    (hget : mapGet lh k = none) :
    (mapValues (mapSet lh k [h])).flatten = (mapValues lh).flatten ++ [h] := by
  induction lh with
  | nil => simp [mapSet, mapValues]
  | cons kv rest ih =>
    obtain ⟨k0, v0⟩ := kv
    by_cases h0 : k0 = k
    · simp [mapGet, h0] at hget
    · simp only [mapGet, h0, if_false] at hget
      have ih2 := ih hget
      simp only [mapSet, h0, if_false, mapValues, List.map_cons, List.flatten_cons] at ih2 ⊢
      rw [ih2, List.append_assoc]

/-- One step of the grouping loop adds exactly the entry it is given. -/
theorem flatten_groupStep (lh : HeatmapMap) (h : Heatmap) :
    (mapValues (groupStep lh h)).flatten.Perm (h :: (mapValues lh).flatten) := by
  unfold groupStep
  cases hg : mapGet lh h.Locality with
  | none =>
    simp only
    rw [flatten_mapSet_none lh _ h hg]
    exact List.perm_append_singleton _ _
  | some val =>
    simp only
    exact flatten_mapSet_some lh _ val h hg

/-- The groups after the grouping loop hold the entries of the input, each as
often as the input does. -/
theorem flatten_groupLoop (hlist : List Heatmap) :
    (mapValues (groupLoop hlist)).flatten.Perm hlist := by
  induction hlist using List.reverseRecOn with
  | nil => simp [groupLoop, mapValues]
  | append_singleton l h ih =>
    rw [groupLoop_append]
    refine (flatten_groupStep _ h).trans ?_
    exact (List.Perm.cons h ih).trans (List.perm_append_singleton h l).symm

/-- Merging back along the localities of `hlist` a map whose groups are the
entries of `hlist` by locality gives `hlist`. -/
theorem mergeBack_of_groups (hlist : List Heatmap) (lh : HeatmapMap)
    (hgroups : ∀ k, (mapGet lh k).getD [] = withLocality k hlist) :
    mergeBack (hlist.map fun h => h.Locality) lh = hlist := by
  induction hlist generalizing lh with
  | nil => simp [mergeBack]
  | cons h t ih =>
    have hk := hgroups h.Locality
    have hget : mapGet lh h.Locality = some (h :: withLocality h.Locality t) := by
      cases hg : mapGet lh h.Locality with
      | none => simp [hg, withLocality] at hk
      | some val =>
        rw [hg] at hk
        simp only [Option.getD_some] at hk
        rw [hk]
        simp [withLocality]
    simp only [List.map_cons, mergeBack, hget]
    congr 1
    apply ih
    intro k
    rw [mapGet_mapSet]
    by_cases hkk : h.Locality = k
    · simp [hkk]
    · have := hgroups k
      simp only [withLocality, List.filter_cons, hkk, decide_False] at this
      simpa [hkk, withLocality] using this

/-- C6: for every list `hlist` of entries (distance-sorted or not) the map
built by the grouping loop of `cluster` has pairwise distinct keys, which are
exactly the `Locality` values occurring in `hlist`; the value at each key `k`
is exactly the list of the entries of `hlist` with `Locality = k`, in the
order of `hlist`, and no other key is present; the groups together hold every
entry of `hlist` exactly as often as `hlist` does; and merging the groups back
along the order of `hlist` reproduces `hlist`. -/
theorem groupLoop_groups_by_locality (hlist : List Heatmap) :
    (mapKeys (groupLoop hlist)).Nodup ∧
      (∀ k, k ∈ mapKeys (groupLoop hlist) ↔ ∃ h ∈ hlist, h.Locality = k) ∧
      (∀ k ∈ mapKeys (groupLoop hlist),
        mapGet (groupLoop hlist) k = some (withLocality k hlist)) ∧
      (∀ k, k ∉ mapKeys (groupLoop hlist) → mapGet (groupLoop hlist) k = none) ∧
      (∀ k, (withLocality k hlist).Sublist hlist) ∧
      (mapValues (groupLoop hlist)).flatten.Perm hlist ∧
      mergeBack (hlist.map fun h => h.Locality) (groupLoop hlist) = hlist := by
  refine ⟨nodup_mapKeys_groupLoop hlist, mem_mapKeys_groupLoop hlist, ?_, ?_, ?_,
    flatten_groupLoop hlist, mergeBack_of_groups hlist _ (mapGet_groupLoop_getD hlist)⟩
  · intro k hk
    have h1 := (mem_mapKeys_iff _ k).1 hk
    have h2 := mapGet_groupLoop_getD hlist k
    cases hg : mapGet (groupLoop hlist) k with
    | none => exact absurd hg h1
    | some val =>
      rw [hg] at h2
      simpa using h2
  · intro k hk
    by_contra hne
    exact hk ((mem_mapKeys_iff _ k).2 hne)
  · intro k
    exact List.filter_sublist _

/-! ## Properties of `cluster` -/

/-- The loop body for a cluster whose points are all read and whose lookup
returns without error. -/
theorem clusterEntry_ret (env : Env) (lat long : ℚ) (c : List Nat) (acc : Nat × ℚ × ℚ)
    (g : Geocode) (hsum : sumLoop env.plist c (0, 0, 0) = .ret acc)
    (hgeo : getGeocode env (acc.2.1 / (acc.1 : ℚ)) (acc.2.2 / (acc.1 : ℚ)) = .ret (g, none)) :
    clusterEntry env lat long c =
      .ret (some
        { Distance :=
            distanceOf env lat long (acc.2.1 / (acc.1 : ℚ)) (acc.2.2 / (acc.1 : ℚ))
          Latitude := acc.2.1 / (acc.1 : ℚ)
          Longitude := acc.2.2 / (acc.1 : ℚ)
          EstimateLocation := g.EstimateLocation
          Locality := g.Locality
          PAXCount := acc.1 }) := by
  unfold clusterEntry
  rw [hsum]
  simp only [Outcome.bind]
  rw [hgeo]

/-- The loop body for a cluster whose lookup returns an error. -/
theorem clusterEntry_error (env : Env) (lat long : ℚ) (c : List Nat) (acc : Nat × ℚ × ℚ)
    (g : Geocode) (err : Error) (hsum : sumLoop env.plist c (0, 0, 0) = .ret acc)
    (hgeo : getGeocode env (acc.2.1 / (acc.1 : ℚ)) (acc.2.2 / (acc.1 : ℚ)) =
      .ret (g, some err)) :
    clusterEntry env lat long c = .ret none := by
  unfold clusterEntry
  rw [hsum]
  simp only [Outcome.bind]
  rw [hgeo]

/-- When the loop body of the first cluster takes the early return, `cluster`
returns the pair `nil, nil`. -/
theorem cluster_first_error (env : Env) (lat long : ℚ) (d : List Point) (c : List Nat)
    (cs : List (List Nat)) (hdb : env.DBScan d (3 / 2) 10 = c :: cs)
    (hentry : clusterEntry env lat long c = .ret none) :
    cluster env lat long d = .ret (none, none) := by
  simp [cluster, hdb, clusterLoop, hentry, Outcome.bind]

/-- When the clusterer finds a single cluster, its loop body yields the entry
`h` and sorting the one-element list returns it, `cluster` returns the map with
the single group `[h]` under the locality of `h`. -/
theorem cluster_single (env : Env) (lat long : ℚ) (d : List Point) (c : List Nat)
    (h : Heatmap) (hdb : env.DBScan d (3 / 2) 10 = [c])
    (hentry : clusterEntry env lat long c = .ret (some h))
    (hsort : env.sortSlice distLess [h] = [h]) :
    cluster env lat long d = .ret (some [(h.Locality, [h])], none) := by
  simp [cluster, hdb, clusterLoop, hentry, Outcome.bind, sortStep, hsort, groupLoop, groupStep,
    mapGet, mapSet]

/-- When the clusterer finds no cluster, `cluster` returns the empty map. -/
theorem cluster_no_cluster (env : Env) (lat long : ℚ) (d : List Point)
    (hdb : env.DBScan d (3 / 2) 10 = []) (hsort : env.sortSlice distLess [] = []) :
    cluster env lat long d = .ret (some [], none) := by
  simp [cluster, hdb, clusterLoop, Outcome.bind, sortStep, hsort, groupLoop]

/-- The sums over the first twelve rows of `pingsThirteen`. -/
theorem sumLoop_pingsThirteen :
    sumLoop pingsThirteen twelveIndices (0, 0, 0) = .ret (12, 61, 61) := by
  simp [sumLoop, pingsThirteen, twelveIndices, List.replicate]
  norm_num

/-- The sums over the twelve rows of `pingsTwelve`. -/
theorem sumLoop_pingsTwelve :
    sumLoop pingsTwelve twelveIndices (0, 0, 0) = .ret (12, 12, 12) := by
  simp [sumLoop, pingsTwelve, twelveIndices, List.replicate]
  norm_num

/-- On a partition of twelve points the sample clusterer returns one cluster
with the indices `0, …, 11`. -/
theorem denseDBScan_dTwelve : denseDBScan dTwelve (3 / 2) 10 = [twelveIndices] := by
  decide

/-- The distance is `0` whenever the latitude of the origin is `0`. -/
theorem distanceOf_lat_zero (env : Env) (long avglat avglong : ℚ) :
    distanceOf env 0 long avglat avglong = 0 := by
  simp [distanceOf]

/-- The distance is `0` whenever the longitude of the origin is `0`. -/
theorem distanceOf_long_zero (env : Env) (lat avglat avglong : ℚ) :
    distanceOf env lat 0 avglat avglong = 0 := by
  simp [distanceOf]

/-- The distance is the haversine distance when both coordinates of the
origin differ from `0`. -/
theorem distanceOf_nonzero (env : Env) (lat long avglat avglong : ℚ) (hlat : lat ≠ 0)
    (hlong : long ≠ 0) :
    distanceOf env lat long avglat avglong =
      env.haversineKm { Lat := lat, Lon := long } { Lat := avglat, Lon := avglong } := by
  simp [distanceOf, hlat, hlong]

/-- Insertion sort by `less` returns a rearrangement. -/
theorem perm_stableSlice (less : Heatmap → Heatmap → Bool) (x : List Heatmap) :
    (stableSlice less x).Perm x :=
  List.perm_insertionSort _ x

/-- In the sample environments answering `gmapsOne` every lookup returns the
same place. -/
theorem getGeocode_gmapsOne (plist : List Ping) (nearby : ℚ → ℚ → Fetch Nearby)
    (lat long : ℚ) :
    getGeocode (sampleEnv plist (fun _ _ => .parsed gmapsOne) nearby) lat long =
      .ret ({ EstimateLocation := "Barangay 1, Makati", Locality := "Makati" }, none) := by
  rw [getGeocode_ok_eq _ lat long gmapsOne _ [] rfl rfl rfl]
  decide

/-- The partition of `pingsThirteen` at `sampleNow`. -/
theorem partitionLoop_pingsThirteen :
    partitionLoop sampleNow pingsThirteen ([], []) =
      .ok (dTwelve, [{ lat := 50, long := 50 }]) := by
  rfl

/-- The partition of `pingsTwelve` at `sampleNow`. -/
theorem partitionLoop_pingsTwelve :
    partitionLoop sampleNow pingsTwelve ([], []) = .ok (dTwelve, []) := by
  rfl

/-- C1: with the ping table `pingsThirteen` (a recent ping at `(50, 50)`, then
twelve old pings at `(1, 1)`) the current partition is `dTwelve`, twelve points
at `(1, 1)`, and the clusterer returns the cluster of indices `0, …, 11` over
it; the entry `cluster` builds has `Latitude = Longitude = 61/12`, the mean of
the table rows `plist[0], …, plist[11]`, whereas the mean of the partition's
own points `d[0], …, d[11]` is `(1, 1)`. -/
theorem cluster_centroid_reads_plist :
    partitionLoop sampleNow envThirteen.plist ([], []) =
        .ok (dTwelve, [{ lat := 50, long := 50 }]) ∧
      envThirteen.DBScan dTwelve (3 / 2) 10 = [twelveIndices] ∧
      cluster envThirteen 0 0 dTwelve =
        .ret (some [("Makati", [makatiEntry 0 (61 / 12) (61 / 12)])], none) ∧
      partitionMean dTwelve twelveIndices = (1, 1) ∧
      (makatiEntry 0 (61 / 12) (61 / 12)).Latitude ≠ (partitionMean dTwelve twelveIndices).1 := by
  have hmean : partitionMean dTwelve twelveIndices = (1, 1) := by
    simp [partitionMean, dTwelve, twelveIndices, List.replicate]
    norm_num
  have hentry : clusterEntry envThirteen 0 0 twelveIndices =
      .ret (some (makatiEntry 0 (61 / 12) (61 / 12))) := by
    have h := clusterEntry_ret envThirteen 0 0 twelveIndices (12, 61, 61) _
      sumLoop_pingsThirteen (getGeocode_gmapsOne _ _ _ _)
    rw [h]
    simp [makatiEntry, distanceOf]
  refine ⟨partitionLoop_pingsThirteen, denseDBScan_dTwelve, ?_, hmean, ?_⟩
  · exact cluster_single envThirteen 0 0 dTwelve twelveIndices _ denseDBScan_dTwelve hentry rfl
  · rw [hmean]
    simp [makatiEntry]
    norm_num

/-- C3: for the origin `(0, 5)`, which is not `(0, 0)`, and the cluster of
twelve points at `(1, 1)`, the entry `cluster` builds has `Distance = 0`,
although the distance function of the environment gives 555 km between the
origin and the centroid `(1, 1)`: the guard `lat != 0 && long != 0` skips the
computation as soon as one coordinate of the origin is `0`. -/
theorem cluster_distance_zero_on_axis :
    cluster envMakati 0 5 dTwelve = .ret (some [("Makati", [makatiEntry 0 1 1])], none) ∧
      envMakati.haversineKm { Lat := 0, Lon := 5 } { Lat := 1, Lon := 1 } = 555 ∧
      (makatiEntry 0 1 1).Distance ≠
        envMakati.haversineKm { Lat := 0, Lon := 5 } { Lat := 1, Lon := 1 } := by
  have hentry : clusterEntry envMakati 0 5 twelveIndices = .ret (some (makatiEntry 0 1 1)) := by
    have h := clusterEntry_ret envMakati 0 5 twelveIndices (12, 12, 12) _
      sumLoop_pingsTwelve (getGeocode_gmapsOne _ _ _ _)
    rw [h]
    simp [makatiEntry, distanceOf]
  have hkm : envMakati.haversineKm { Lat := 0, Lon := 5 } { Lat := 1, Lon := 1 } = 555 := by
    simp [envMakati, sampleEnv, gridKm]
    norm_num
  refine ⟨cluster_single envMakati 0 5 dTwelve twelveIndices _ denseDBScan_dTwelve hentry rfl,
    hkm, ?_⟩
  rw [hkm]
  simp [makatiEntry]

/-- An entry yielded by the loop body carries the distance computed for its
own centroid. -/
theorem clusterEntry_distance (env : Env) (lat long : ℚ) (c : List Nat) (h : Heatmap)
    (hentry : clusterEntry env lat long c = .ret (some h)) :
    h.Distance = distanceOf env lat long h.Latitude h.Longitude := by
  unfold clusterEntry at hentry
  cases hs : sumLoop env.plist c (0, 0, 0) with
  | exited =>
    rw [hs] at hentry
    simp [Outcome.bind] at hentry
  | panicked =>
    rw [hs] at hentry
    simp [Outcome.bind] at hentry
  | ret acc =>
    rw [hs] at hentry
    simp only [Outcome.bind] at hentry
    cases hg : getGeocode env (acc.2.1 / (acc.1 : ℚ)) (acc.2.2 / (acc.1 : ℚ)) with
    | exited => simp [hg] at hentry
    | panicked => simp [hg] at hentry
    | ret res =>
      rw [hg] at hentry
      obtain ⟨g, err⟩ := res
      cases err with
      | some e => simp at hentry
      | none =>
        simp only [Outcome.ret.injEq, Option.some.injEq] at hentry
        rw [← hentry]

/-- When the cluster loop returns a list, that list is the list it was given
followed by one entry for each cluster, yielded by the loop body. -/
theorem clusterLoop_ret_some (env : Env) (lat long : ℚ) (cs : List (List Nat))
    (hlist out : List Heatmap)
    (hret : clusterLoop env lat long cs hlist = .ret (some out)) :
    ∃ es, out = hlist ++ es ∧
      List.Forall₂ (fun c h => clusterEntry env lat long c = .ret (some h)) cs es := by
  induction cs generalizing hlist with
  | nil =>
    simp only [clusterLoop, Outcome.ret.injEq, Option.some.injEq] at hret
    exact ⟨[], by simp [hret], List.Forall₂.nil⟩
  | cons c cs ih =>
    simp only [clusterLoop] at hret
    cases he : clusterEntry env lat long c with
    | exited => simp [he, Outcome.bind] at hret
    | panicked => simp [he, Outcome.bind] at hret
    | ret r =>
      rw [he] at hret
      simp only [Outcome.bind] at hret
      cases r with
      | none => simp at hret
      | some h =>
        obtain ⟨es, hes, hrel⟩ := ih (hlist ++ [h]) hret
        exact ⟨h :: es, by simp [hes], List.Forall₂.cons he hrel⟩

/-- Related lists: every element of the second has a partner in the first. -/
theorem exists_left_of_forall₂ {α β : Type} (R : α → β → Prop) (xs : List α) (ys : List β)
    (hrel : List.Forall₂ R xs ys) (b : β) (hb : b ∈ ys) : ∃ a ∈ xs, R a b := by
  induction hrel with
  | nil => simp at hb
  | cons hab _ ih =>
    rcases List.mem_cons.1 hb with rfl | hb1
    · exact ⟨_, List.mem_cons_self _ _, hab⟩
    · obtain ⟨a, ha, hr⟩ := ih hb1
      exact ⟨a, List.mem_cons_of_mem _ ha, hr⟩

/-- Every entry of every group of the map `cluster` returns was yielded by the
loop body for one of the clusters. -/
theorem cluster_entry_origin (env : Env) (lat long : ℚ) (d : List Point) (lh : HeatmapMap)
    (hsort : ∀ x, (env.sortSlice distLess x).Perm x)
    (hret : cluster env lat long d = .ret (some lh, none))
    (k : String) (grp : List Heatmap) (hgrp : mapGet lh k = some grp) (h : Heatmap)
    (hmem : h ∈ grp) :
    ∃ c ∈ env.DBScan d (3 / 2) 10, clusterEntry env lat long c = .ret (some h) := by
  unfold cluster at hret
  cases hl : clusterLoop env lat long (env.DBScan d (3 / 2) 10) [] with
  | exited => simp [hl, Outcome.bind] at hret
  | panicked => simp [hl, Outcome.bind] at hret
  | ret r =>
    rw [hl] at hret
    simp only [Outcome.bind] at hret
    cases r with
    | none => simp at hret
    | some out =>
      simp only [Outcome.ret.injEq, Prod.mk.injEq, Option.some.injEq, and_true] at hret
      obtain ⟨es, hes, hrel⟩ := clusterLoop_ret_some env lat long _ [] out hl
      have hg := mapGet_groupLoop_getD (sortStep env out) k
      rw [hret, hgrp] at hg
      simp only [Option.getD_some] at hg
      rw [hg] at hmem
      have h1 : h ∈ sortStep env out := (List.mem_filter.1 hmem).1
      have h2 : h ∈ out := (hsort out).mem_iff.1 h1
      rw [hes, List.nil_append] at h2
      exact exists_left_of_forall₂ _ _ _ hrel h h2

/-- The distance `cluster` computes: in the map it returns for the origin
`(lat, long)`, every entry has `Distance = 0` when `lat = 0` or `long = 0`, and
when both `lat` and `long` differ from `0` its `Distance` is the haversine
distance in kilometres between the origin and the centroid of the entry (the
sort being any function that returns a rearrangement of its argument). -/
theorem cluster_distance (env : Env) (lat long : ℚ) (d : List Point) (lh : HeatmapMap)
    (hsort : ∀ x, (env.sortSlice distLess x).Perm x)
    (hret : cluster env lat long d = .ret (some lh, none))
    (k : String) (grp : List Heatmap) (hgrp : mapGet lh k = some grp) (h : Heatmap)
    (hmem : h ∈ grp) :
    (lat = 0 ∨ long = 0 → h.Distance = 0) ∧
      (lat ≠ 0 → long ≠ 0 →
        h.Distance =
          env.haversineKm { Lat := lat, Lon := long }
            { Lat := h.Latitude, Lon := h.Longitude }) := by
  obtain ⟨c, _, hentry⟩ := cluster_entry_origin env lat long d lh hsort hret k grp hgrp h hmem
  have hd := clusterEntry_distance env lat long c h hentry
  constructor
  · rintro (h0 | h0)
    · rw [hd, h0, distanceOf_lat_zero]
    · rw [hd, h0, distanceOf_long_zero]
  · intro hlat hlong
    rw [hd, distanceOf_nonzero env lat long _ _ hlat hlong]

/-- The distance `cluster` computes at the origin `(2, 5)` for the cluster of
twelve points at `(1, 1)`: the entry is at 555 km, the distance the
environment gives between the origin and the centroid. -/
theorem cluster_distance_sample :
    cluster envMakati 2 5 dTwelve = .ret (some [("Makati", [makatiEntry 555 1 1])], none) ∧
      (makatiEntry 555 1 1).Distance =
        envMakati.haversineKm { Lat := 2, Lon := 5 } { Lat := 1, Lon := 1 } := by
  have hentry : clusterEntry envMakati 2 5 twelveIndices =
      .ret (some (makatiEntry 555 1 1)) := by
    have h := clusterEntry_ret envMakati 2 5 twelveIndices (12, 12, 12) _
      sumLoop_pingsTwelve (getGeocode_gmapsOne _ _ _ _)
    rw [h]
    simp [makatiEntry, distanceOf, envMakati, sampleEnv, gridKm]
    norm_num
  have hret := cluster_single envMakati 2 5 dTwelve twelveIndices _ denseDBScan_dTwelve
    hentry rfl
  refine ⟨hret, ?_⟩
  exact (cluster_distance envMakati 2 5 dTwelve _ (perm_stableSlice distLess) hret "Makati"
    [makatiEntry 555 1 1] (by simp [makatiEntry, mapGet]) (makatiEntry 555 1 1) (by simp)).2
    (by norm_num) (by norm_num)

/-- C4: when the reverse-geocoding answer for the centroid of the only cluster
cannot be parsed, `getGeocode` returns an error, `cluster` returns the pair
`nil, nil` (no map and no error), and `getHeatMap` answers with status 200 and
a result set whose `current` member is the `nil` map, not with an error. -/
theorem cluster_swallows_geocode_error :
    getGeocode envUnparsable 1 1 = .ret ({}, some "unexpected end of JSON input") ∧
      cluster envUnparsable 0 0 dTwelve = .ret (none, none) ∧
      getHeatMap envUnparsable sampleNow none none = .ret (.jsonResp none (some []) 200) := by
  have hgeo : ∀ la lo : ℚ,
      getGeocode envUnparsable la lo = .ret ({}, some "unexpected end of JSON input") := by
    intro la lo
    simp [getGeocode, envUnparsable, sampleEnv]
  have hentry : clusterEntry envUnparsable 0 0 twelveIndices = .ret none :=
    clusterEntry_error envUnparsable 0 0 twelveIndices (12, 12, 12) _ _
      sumLoop_pingsTwelve (hgeo _ _)
  have hcur : cluster envUnparsable 0 0 dTwelve = .ret (none, none) :=
    cluster_first_error envUnparsable 0 0 dTwelve twelveIndices [] denseDBScan_dTwelve hentry
  have hpre : cluster envUnparsable 0 0 [] = .ret (some [], none) :=
    cluster_no_cluster envUnparsable 0 0 [] (by decide) rfl
  refine ⟨hgeo 1 1, hcur, ?_⟩
  have hpart : partitionLoop sampleNow envUnparsable.plist ([], []) = .ok (dTwelve, []) :=
    partitionLoop_pingsTwelve
  simp [getHeatMap, serveHeatMap, hpart, hcur, hpre, Outcome.bind]

end HeatmapGo
